import Mathlib

/-!
Verification of the guess4 game-room state machine.

Shallow embedding of the room state machine of `src/lib/gameRoom.ts` together
with the storage-side version trigger of
`src/database/setup/setup-12-add-version.sql` and the client-side scoring
function `evaluateGuess` of `src/hooks/useGameRoom.ts`.

Modelling conventions:
  - timestamps are integer milliseconds (`Int`); `Math.floor((now - t) / 1000)`
    becomes `Int.fdiv (now - t) 1000` (floor division, as JS `Math.floor`);
  - an SQL `NULL` / JS `undefined` or `null` is `Option.none`;
  - each exported mutator of `gameRoom.ts` becomes a function from the stored
    row (and, for `submitGuess`, the row snapshot the caller read) to the new
    stored row plus the boolean the TS function returns; a conditioned UPDATE
    that matches zero rows leaves the row unchanged and yields `false`;
  - every accepted UPDATE bumps `version` by one, modelling the
    `game_room_version_trigger` BEFORE UPDATE trigger (`NEW.version =
    OLD.version + 1`), which is applied by storage, not by the client payload.
-/

namespace Guess4

/-- A player number, 1 or 2. -/
inductive Player where
  | one
  | two
deriving DecidableEq

/-- The opposite player. -/
def Player.other : Player → Player
  | .one => .two
  | .two => .one

/-- Value of the `winner` column: 1, 2, or "tie" (NULL is `Option.none`). -/
inductive Winner where
  | p1
  | p2
  | tie
deriving DecidableEq

/-- The winner value naming a given player. -/
def Winner.ofPlayer : Player → Winner
  | .one => .p1
  | .two => .p2

/-- A scored guess record, as stored in `player{N}_guesses`
(interface `Guess` of `gameRoom.ts`). -/
structure Guess where
  number : List Char
  correctDigits : Nat
  correctPositions : Nat
deriving DecidableEq

/-- One `game_rooms` row (interface `GameRoom` of `gameRoom.ts`), restricted to
the columns the state machine reads or writes. -/
structure GameRoom where
  player1_id : Option String
  player1_secret : Option String
  player1_guesses : List Guess
  player1_ready : Bool
  player2_id : Option String
  player2_secret : Option String
  player2_guesses : List Guess
  player2_ready : Bool
  current_turn : Player
  game_started : Bool
  winner : Option Winner
  player1_time_remaining : Option Int
  player2_time_remaining : Option Int
  current_turn_player : Option Player
  turn_started_at : Option Int
  version : Nat
deriving DecidableEq

/-- `createGameRoom`: the freshly inserted row. `timeLimit || 300` in JS treats
both `undefined` and `0` as absent; `version` starts at the column default 1. -/
def createGameRoom (userId : Option String) (timeLimit : Option Int) : GameRoom :=
  let timeInSeconds : Int :=
    match timeLimit with
    | some t => if t = 0 then 300 else t
    | none => 300
  { player1_id := userId
    player1_secret := some ""
    player1_guesses := []
    player1_ready := false
    player2_id := none
    player2_secret := some ""
    player2_guesses := []
    player2_ready := false
    current_turn := .one
    game_started := false
    winner := none
    player1_time_remaining := some timeInSeconds
    player2_time_remaining := some timeInSeconds
    current_turn_player := none
    turn_started_at := none
    version := 1 }

/-- `joinGameRoom`: sets `player2_id`, conditioned on `player2_id IS NULL`.
With no `userId` the TS function skips the update and returns `exists`. -/
def joinGameRoom (stored : GameRoom) (userId : Option String) : GameRoom × Bool :=
  match userId with
  | some uid =>
    if stored.player2_id = none then
      ({ stored with player2_id := some uid, version := stored.version + 1 }, true)
    else
      (stored, false)
  | none => (stored, true)

/-- `setPlayerSecret`: unconditioned write of the player's secret and ready
flag (the TS function carries no version or state condition at all). -/
def setPlayerSecret (stored : GameRoom) (p : Player) (secret : String) :
    GameRoom × Bool :=
  match p with
  | .one =>
    ({ stored with player1_secret := some secret, player1_ready := true,
                   version := stored.version + 1 }, true)
  | .two =>
    ({ stored with player2_secret := some secret, player2_ready := true,
                   version := stored.version + 1 }, true)

/-- `startGame`: conditioned on `game_started = false`; starts player 1's
clock. -/
def startGame (stored : GameRoom) (now : Int) : GameRoom × Bool :=
  if stored.game_started = false then
    ({ stored with game_started := true, current_turn_player := some .one,
                   turn_started_at := some now, version := stored.version + 1 }, true)
  else
    (stored, false)

/-- The version number `submitGuess` reads from its snapshot:
`room.version || 1` (JS `||` maps a falsy 0 to 1; the column is
`NOT NULL DEFAULT 1`). -/
def observedVersion (room : GameRoom) : Nat :=
  if room.version = 0 then 1 else room.version

/-- The clock settlement inside `submitGuess` (lines 203-221): both baselines
default through `?? 300`; only when the snapshot shows a running clock owned
by the submitter is that player's baseline charged for elapsed time and
granted the fixed 5-second move bonus. -/
def submitUpdatedTimes (room : GameRoom) (p : Player) (now : Int) : Int × Int :=
  let t1 := room.player1_time_remaining.getD 300
  let t2 := room.player2_time_remaining.getD 300
  match room.turn_started_at with
  | some ts =>
    if room.current_turn_player = some p then
      let elapsedSeconds := Int.fdiv (now - ts) 1000
      match p with
      | .one => (max 0 (t1 - elapsedSeconds) + 5, t2)
      | .two => (t1, max 0 (t2 - elapsedSeconds) + 5)
    else
      (t1, t2)
  | none => (t1, t2)

/-- Whether some guess in the list has all four positions correct. -/
def hasCorrectGuess (gs : List Guess) : Bool :=
  gs.any fun og => og.correctPositions == 4

/-- The winner decision inside `submitGuess` (lines 231-270), computed against
the post-append guess list of the acting player and the opponent's list. -/
def decideWinner (p : Player) (g : Guess) (updatedGuesses opponentGuesses : List Guess) :
    Option Winner :=
  if g.correctPositions = 4 then
    match p with
    | .one =>
      if updatedGuesses.length ≤ opponentGuesses.length then some .p1 else none
    | .two =>
      if hasCorrectGuess opponentGuesses then some .tie else some .p2
  else
    if hasCorrectGuess opponentGuesses then some (Winner.ofPlayer p.other) else none

/-- `submitGuess`: the payload is computed from the snapshot `observed` the
caller read (`getGameRoom` at the top of the function); the UPDATE is applied
to the stored row conditioned on `version = observedVersion observed` and
`current_turn = p`. Zero rows affected returns `false` with the row
untouched. -/
def submitGuessWrite (stored observed : GameRoom) (p : Player) (g : Guess)
    (now : Int) : GameRoom × Bool :=
  let times := submitUpdatedTimes observed p now
  let updatedGuesses :=
    (match p with
     | .one => observed.player1_guesses
     | .two => observed.player2_guesses) ++ [g]
  let opponentGuesses :=
    match p with
    | .one => observed.player2_guesses
    | .two => observed.player1_guesses
  let winner := decideWinner p g updatedGuesses opponentGuesses
  let nextPlayer := p.other
  if stored.version = observedVersion observed ∧ stored.current_turn = p then
    (match p with
     | .one =>
       { stored with
           player1_guesses := updatedGuesses
           player1_time_remaining := some times.1
           player2_time_remaining := some times.2
           current_turn := .two
           current_turn_player := if winner.isSome then none else some nextPlayer
           turn_started_at := if winner.isSome then none else some now
           winner := winner
           version := stored.version + 1 }
     | .two =>
       { stored with
           player2_guesses := updatedGuesses
           player1_time_remaining := some times.1
           player2_time_remaining := some times.2
           current_turn := .one
           current_turn_player := if winner.isSome then none else some nextPlayer
           turn_started_at := if winner.isSome then none else some now
           winner := winner
           version := stored.version + 1 }, true)
  else
    (stored, false)

/-- `handleTimeExpiration`: declares the opponent winner, conditioned on
`winner IS NULL` and `current_turn_player = p`. Never reads the clocks. -/
def handleTimeExpiration (stored : GameRoom) (p : Player) : GameRoom × Bool :=
  let winner := Winner.ofPlayer p.other
  if stored.winner = none ∧ stored.current_turn_player = some p then
    ({ stored with winner := some winner, current_turn_player := none,
                   turn_started_at := none, version := stored.version + 1 }, true)
  else
    (stored, false)

/-- `getCurrentTimeRemaining`: the live derived clock value for a player. -/
def getCurrentTimeRemaining (room : GameRoom) (p : Player) (now : Int) : Int :=
  let baseTime :=
    match p with
    | .one => room.player1_time_remaining.getD 300
    | .two => room.player2_time_remaining.getD 300
  match room.turn_started_at with
  | some ts =>
    if room.current_turn_player = some p ∧ room.winner = none then
      max 0 (baseTime - Int.fdiv (now - ts) 1000)
    else
      baseTime
  | none => baseTime

/-- `leaveGame`: branch order as in the source. `none` models deletion of the
row; the forfeit branch's `.is("winner", null)` condition coincides with its
guard when the write races nothing. The trailing stats RPC touches other
tables and is outside this model. -/
def leaveGame (stored : GameRoom) (p : Player) : Option GameRoom × Bool :=
  if stored.game_started = false ∧ stored.player2_id = none ∧ p = .one then
    (none, true)
  else if stored.game_started = false ∧ stored.player2_id ≠ none ∧ p = .two then
    (some { stored with player2_id := none, player2_ready := false,
                        player2_secret := none, version := stored.version + 1 }, true)
  else if stored.game_started = true ∧ stored.winner = none then
    (some { stored with winner := some (Winner.ofPlayer p.other),
                        current_turn_player := none, turn_started_at := none,
                        version := stored.version + 1 }, true)
  else
    (some stored, true)

/-- The exposed mutating operations on a room. In `submit`, `observed` is the
snapshot the caller read before writing. -/
inductive Op where
  | join (userId : Option String)
  | setSecret (p : Player) (secret : String)
  | start (now : Int)
  | submit (observed : GameRoom) (p : Player) (g : Guess) (now : Int)
  | expire (p : Player)
  | leave (p : Player)
deriving DecidableEq

/-- Apply one operation to the stored row; `none` is a deleted row, the Bool
is the value the TS function returns. -/
def applyOp (r : GameRoom) (op : Op) : Option GameRoom × Bool :=
  match op with
  | .join uid => let res := joinGameRoom r uid; (some res.1, res.2)
  | .setSecret p s => let res := setPlayerSecret r p s; (some res.1, res.2)
  | .start now => let res := startGame r now; (some res.1, res.2)
  | .submit o p g now => let res := submitGuessWrite r o p g now; (some res.1, res.2)
  | .expire p => let res := handleTimeExpiration r p; (some res.1, res.2)
  | .leave p => leaveGame r p

/-- One step of the room's evolution under any operation (accepted or not). -/
def Step (r r2 : GameRoom) : Prop :=
  ∃ op, (applyOp r op).1 = some r2

/-- The client-side scoring of `evaluateGuess` (`useGameRoom.ts`): exact
position matches over the fixed indices 0..3. The placeholder default mirrors
JS indexing past the string end. -/
def correctPositionsOf (guess secret : List Char) : Nat :=
  (if guess.getD 0 ' ' = secret.getD 0 ' ' then 1 else 0) +
  (if guess.getD 1 ' ' = secret.getD 1 ' ' then 1 else 0) +
  (if guess.getD 2 ' ' = secret.getD 2 ' ' then 1 else 0) +
  (if guess.getD 3 ' ' = secret.getD 3 ' ' then 1 else 0)

/-- `evaluateGuess`'s digit count: every character of the guess that occurs
anywhere in the secret, with multiplicity on the guess side only. -/
def correctDigitsOf (guess secret : List Char) : Nat :=
  guess.countP fun c => secret.contains c

/-- `evaluateGuess` returns `{ correctDigits, correctPositions }`. -/
def evaluateGuess (guess secret : List Char) : Nat × Nat :=
  (correctDigitsOf guess secret, correctPositionsOf guess secret)

/-- A representative mid-game room used by concrete witnesses: both players
joined and ready, game started, player 1 to move, clocks at 300s. -/
def sampleRoom : GameRoom :=
  { player1_id := some "u1"
    player1_secret := some "1234"
    player1_guesses := []
    player1_ready := true
    player2_id := some "u2"
    player2_secret := some "5678"
    player2_guesses := []
    player2_ready := true
    current_turn := .one
    game_started := true
    winner := none
    player1_time_remaining := some 300
    player2_time_remaining := some 300
    current_turn_player := some .one
    turn_started_at := some 0
    version := 5 }

/-- A wrong guess (no positions correct). -/
def dullGuess : Guess := ⟨['1', '1', '1', '1'], 0, 0⟩

/-- A fully correct guess (all four positions). -/
def winGuess : Guess := ⟨['5', '6', '7', '8'], 4, 4⟩

/-- Any single operation either leaves the stored row untouched (a rejected
conditioned write) or bumps `version` by exactly one (the storage trigger). -/
theorem applyOp_version_bump (r : GameRoom) (op : Op) (r2 : GameRoom)
    (h : (applyOp r op).1 = some r2) : r2 = r ∨ r2.version = r.version + 1 := by
  cases op with
  | join uid =>
    rcases uid with _ | u <;>
      simp only [applyOp, joinGameRoom] at h <;>
      (try split_ifs at h) <;>
      simp only [Option.some.injEq] at h <;>
      first
      | exact Or.inl h.symm
      | (right; subst h; rfl)
  | setSecret p s =>
    cases p <;>
      simp only [applyOp, setPlayerSecret, Option.some.injEq] at h <;>
      (right; subst h; rfl)
  | start now =>
    simp only [applyOp, startGame] at h
    split_ifs at h <;>
      simp only [Option.some.injEq] at h <;>
      first
      | exact Or.inl h.symm
      | (right; subst h; rfl)
  | submit o p g now =>
    cases p <;>
      simp only [applyOp, submitGuessWrite] at h <;>
      split_ifs at h <;>
      simp only [Option.some.injEq] at h <;>
      first
      | exact Or.inl h.symm
      | (right; subst h; rfl)
  | expire p =>
    simp only [applyOp, handleTimeExpiration] at h
    split_ifs at h <;>
      simp only [Option.some.injEq] at h <;>
      first
      | exact Or.inl h.symm
      | (right; subst h; rfl)
  | leave p =>
    simp only [leaveGame, applyOp] at h
    split_ifs at h <;>
      simp only [Option.some.injEq, reduceCtorEq] at h <;>
      first
      | exact Or.inl h.symm
      | (right; subst h; rfl)

/-- Version never decreases across a step. -/
theorem step_version_le {r r2 : GameRoom} (h : Step r r2) :
    r.version ≤ r2.version := by
  obtain ⟨op, hop⟩ := h
  rcases applyOp_version_bump r op r2 hop with rfl | hv
  · exact le_refl _
  · omega

/-- Version never decreases across any sequence of steps. -/
theorem reach_version_le {r r2 : GameRoom} (h : Relation.ReflTransGen Step r r2) :
    r.version ≤ r2.version := by
  induction h with
  | refl => exact le_refl _
  | tail _ hstep ih => exact le_trans ih (step_version_le hstep)

/-- A rejected `submitGuess` write (version moved, or not this player's turn)
leaves the row untouched and reports `false`. -/
theorem submitGuessWrite_fail {stored observed : GameRoom} {p : Player}
    {g : Guess} {now : Int}
    (h : ¬(stored.version = observedVersion observed ∧ stored.current_turn = p)) :
    submitGuessWrite stored observed p g now = (stored, false) := by
  simp only [submitGuessWrite]
  rw [if_neg h]

/-- An accepted `submitGuess` write implies both conditions held, and the new
row's version is the old one plus one. -/
theorem submitGuessWrite_success (stored observed : GameRoom) (p : Player)
    (g : Guess) (now : Int)
    (h : (submitGuessWrite stored observed p g now).2 = true) :
    stored.version = observedVersion observed ∧ stored.current_turn = p ∧
    (submitGuessWrite stored observed p g now).1.version = stored.version + 1 := by
  by_cases hc : stored.version = observedVersion observed ∧ stored.current_turn = p
  · refine ⟨hc.1, hc.2, ?_⟩
    cases p <;> simp only [submitGuessWrite, if_pos hc]
  · rw [submitGuessWrite_fail hc] at h
    simp at h

/-- Membership form of `hasCorrectGuess`. -/
theorem hasCorrectGuess_iff (gs : List Guess) :
    hasCorrectGuess gs = true ↔ ∃ pg ∈ gs, pg.correctPositions = 4 := by
  simp [hasCorrectGuess, List.any_eq_true, beq_iff_eq]

/-- A list of length four is literally a four-element list. -/
theorem length_four_cases {α : Type} (l : List α) (h : l.length = 4) :
    ∃ a b c d, l = [a, b, c, d] := by
  rcases l with _ | ⟨a, _ | ⟨b, _ | ⟨c, _ | ⟨d, _ | ⟨e, t⟩⟩⟩⟩⟩ <;>
    simp only [List.length_nil, List.length_cons] at h <;>
    first
    | (exfalso; omega)
    | exact ⟨_, _, _, _, rfl⟩

/-- A snapshot of `sampleRoom` one version behind the stored row. -/
def staleRoom : GameRoom := { sampleRoom with version := 4 }

/-- Claim C1: the `submitGuess` write is conditioned on the version the caller
read and on `current_turn` equalling the submitting player; when the condition
fails the call returns `false` (no exception) and the stored row is unchanged;
and two `submitGuess` calls made against the same observed version never both
succeed — once one write is accepted, any later write against that observed
version fails, whatever accepted or rejected operations happen in between. -/
theorem submitGuess_cas_discipline (stored observed : GameRoom) (p : Player)
    (g : Guess) (now : Int) :
    (¬(stored.version = observedVersion observed ∧ stored.current_turn = p) →
       submitGuessWrite stored observed p g now = (stored, false)) ∧
    (∀ s1 s2 o2 : GameRoom, ∀ q : Player, ∀ g2 : Guess, ∀ n2 : Int,
       submitGuessWrite stored observed p g now = (s1, true) →
       Relation.ReflTransGen Step s1 s2 →
       o2.version = observed.version →
       (submitGuessWrite s2 o2 q g2 n2).2 = false) := by
  refine ⟨fun h => submitGuessWrite_fail h, ?_⟩
  intro s1 s2 o2 q g2 n2 h1 hreach hver
  obtain ⟨hv1, -, hv2⟩ :=
    submitGuessWrite_success stored observed p g now (by rw [h1])
  have hs1 : s1.version = stored.version + 1 := by
    rw [h1] at hv2
    exact hv2
  have hle : s1.version ≤ s2.version := reach_version_le hreach
  have hfail : ¬(s2.version = observedVersion o2 ∧ s2.current_turn = q) := by
    rintro ⟨hc, -⟩
    have hoo : observedVersion o2 = observedVersion observed := by
      unfold observedVersion
      rw [hver]
    rw [hoo, ← hv1] at hc
    omega
  rw [submitGuessWrite_fail hfail]

/-- Witness for C1 at concrete rooms: a stale stored row rejects the write;
after an accepted write, a retry against the same observed version fails. -/
theorem submitGuess_cas_discipline_witness :
    submitGuessWrite staleRoom sampleRoom Player.one dullGuess 0 =
      (staleRoom, false) ∧
    (submitGuessWrite (submitGuessWrite sampleRoom sampleRoom Player.one dullGuess 0).1
        sampleRoom Player.one dullGuess 0).2 = false := by
  constructor
  · exact (submitGuess_cas_discipline staleRoom sampleRoom Player.one dullGuess 0).1
      (by decide)
  · exact (submitGuess_cas_discipline sampleRoom sampleRoom Player.one dullGuess 0).2
      (submitGuessWrite sampleRoom sampleRoom Player.one dullGuess 0).1
      (submitGuessWrite sampleRoom sampleRoom Player.one dullGuess 0).1
      sampleRoom Player.one dullGuess 0 (by decide) Relation.ReflTransGen.refl rfl

/-- Claim C4: with winner unset and `current_turn_player` equal to the expired
player, `handleTimeExpiration` declares the other player winner, clears the
active player and clock, and returns true; otherwise it changes nothing and
returns false; in particular a repeated call after a successful one is a
no-op returning false. -/
theorem expire_on_timeout_spec (r : GameRoom) (p : Player) :
    (r.winner = none → r.current_turn_player = some p →
       handleTimeExpiration r p =
         ({ r with winner := some (Winner.ofPlayer p.other),
                   current_turn_player := none, turn_started_at := none,
                   version := r.version + 1 }, true)) ∧
    (¬(r.winner = none ∧ r.current_turn_player = some p) →
       handleTimeExpiration r p = (r, false)) ∧
    (∀ r2, handleTimeExpiration r p = (r2, true) →
       handleTimeExpiration r2 p = (r2, false)) := by
  refine ⟨fun hw hc => ?_, fun h => ?_, fun r2 h => ?_⟩
  · simp only [handleTimeExpiration]
    rw [if_pos (And.intro hw hc)]
  · simp only [handleTimeExpiration]
    rw [if_neg h]
  · simp only [handleTimeExpiration] at h ⊢
    split_ifs at h with hc
    · simp only [Prod.mk.injEq] at h
      obtain ⟨hr2, -⟩ := h
      subst hr2
      rw [if_neg (by simp)]
    · simp at h

/-- Witness for C4: expiring player 1 on `sampleRoom` declares player 2 winner
and stops the clock; the immediate repeat is rejected. -/
theorem expire_on_timeout_spec_witness :
    handleTimeExpiration sampleRoom Player.one =
      ({ sampleRoom with winner := some (Winner.ofPlayer Player.one.other),
                         current_turn_player := none, turn_started_at := none,
                         version := sampleRoom.version + 1 }, true) ∧
    handleTimeExpiration (handleTimeExpiration sampleRoom Player.one).1 Player.one =
      ((handleTimeExpiration sampleRoom Player.one).1, false) := by
  constructor
  · exact (expire_on_timeout_spec sampleRoom Player.one).1 rfl rfl
  · exact (expire_on_timeout_spec sampleRoom Player.one).2.2
      (handleTimeExpiration sampleRoom Player.one).1 (by decide)

/-- Claim C10: `handleTimeExpiration` never consults the clock — with winner
unset and the named player holding the turn it succeeds and declares the
opponent winner even while that player's derived live remaining time is still
strictly positive. -/
theorem expire_ignores_clock (r : GameRoom) (p : Player) (now : Int)
    (hw : r.winner = none) (hc : r.current_turn_player = some p)
    (hpos : 0 < getCurrentTimeRemaining r p now) :
    (handleTimeExpiration r p).2 = true ∧
    (handleTimeExpiration r p).1.winner = some (Winner.ofPlayer p.other) ∧
    (handleTimeExpiration r p).1.current_turn_player = none := by
  simp only [handleTimeExpiration]
  rw [if_pos (And.intro hw hc)]
  exact ⟨rfl, rfl, rfl⟩

/-- Witness for C10: player 1 still has 299 live seconds on `sampleRoom` at
time 1000ms, yet the expiration call succeeds and hands the win to player 2. -/
theorem expire_ignores_clock_witness :
    0 < getCurrentTimeRemaining sampleRoom Player.one 1000 ∧
    (handleTimeExpiration sampleRoom Player.one).2 = true ∧
    (handleTimeExpiration sampleRoom Player.one).1.winner = some Winner.p2 := by
  refine ⟨by decide,
    (expire_ignores_clock sampleRoom Player.one 1000 rfl rfl (by decide)).1, ?_⟩
  exact (expire_ignores_clock sampleRoom Player.one 1000 rfl rfl (by decide)).2.1

/-- Claim C7 (amended): `version` strictly increases by exactly 1 on every
accepted write, with the increment applied by the storage trigger rather than
the client payload; but only `submitGuess` conditions acceptance on the
version the writer observed — the other operations are conditioned on other
fields or on nothing. -/
theorem version_bump_only_submit_checks (r : GameRoom) :
    (∀ op r2, (applyOp r op).1 = some r2 → r2 = r ∨ r2.version = r.version + 1) ∧
    (∀ o : GameRoom, ∀ q : Player, ∀ g : Guess, ∀ n : Int,
       (submitGuessWrite r o q g n).2 = true → r.version = observedVersion o) :=
  ⟨fun op r2 h => applyOp_version_bump r op r2 h,
   fun o q g n h => (submitGuessWrite_success r o q g n h).1⟩

/-- Witness for the amended C7 at a concrete room and operation. -/
theorem version_bump_only_submit_checks_witness :
    ((handleTimeExpiration sampleRoom Player.one).1 = sampleRoom ∨
     (handleTimeExpiration sampleRoom Player.one).1.version =
       sampleRoom.version + 1) ∧
    sampleRoom.version = observedVersion sampleRoom := by
  constructor
  · exact (version_bump_only_submit_checks sampleRoom).1
      (Op.expire Player.one) (handleTimeExpiration sampleRoom Player.one).1 rfl
  · exact (version_bump_only_submit_checks sampleRoom).2
      sampleRoom Player.one dullGuess 0 (by decide)

/-- Claim C7 counterexample: a client that observed `sampleRoom` at version 5
still has its `setPlayerSecret` write accepted after another write moved the
row to version 6 — the operation carries no version condition at all, so a
write is accepted without the writer having observed the version it updates
from, and the write really changes the row. -/
theorem setSecret_ignores_version :
    (setPlayerSecret sampleRoom Player.one "1234").2 = true ∧
    (setPlayerSecret { sampleRoom with version := 6 } Player.one "1234").2 = true ∧
    (6 : Nat) ≠ sampleRoom.version ∧
    (setPlayerSecret { sampleRoom with version := 6 } Player.one "1234").1 ≠
      { sampleRoom with version := 6 } := by
  decide

/-- Trace states for the winner-overwrite defect: create, join, both secrets
set, game started, then player 1's clock is expired so player 2 is declared
winner — while `current_turn` still points at player 1. -/
def bugRoom0 : GameRoom := createGameRoom (some "u1") none

/-- Player 2 joins. -/
def bugRoom1 : GameRoom := (joinGameRoom bugRoom0 (some "u2")).1

/-- Player 1 sets a secret. -/
def bugRoom2 : GameRoom := (setPlayerSecret bugRoom1 Player.one "1234").1

/-- Player 2 sets a secret. -/
def bugRoom3 : GameRoom := (setPlayerSecret bugRoom2 Player.two "5678").1

/-- The game starts at time 0. -/
def bugRoom4 : GameRoom := (startGame bugRoom3 0).1

/-- Player 1 is expired: player 2 becomes the winner. -/
def bugRoom5 : GameRoom := (handleTimeExpiration bugRoom4 Player.one).1

/-- Claim C6: the winner field is intended to be write-once, but the code
violates it. After `handleTimeExpiration` declares player 2 winner, the loser
refetches the room (so observed version equals stored version) and its
`submitGuess` is still accepted because `current_turn` was never advanced and
the write is not conditioned on `winner`; the accepted payload writes `winner`
back to NULL, erasing the decided win. Every operation on the trace below is
accepted. -/
theorem winner_cleared_by_submit_after_timeout :
    (joinGameRoom bugRoom0 (some "u2")).2 = true ∧
    (startGame bugRoom3 0).2 = true ∧
    (handleTimeExpiration bugRoom4 Player.one).2 = true ∧
    bugRoom5.winner = some Winner.p2 ∧
    (submitGuessWrite bugRoom5 bugRoom5 Player.one dullGuess 1000).2 = true ∧
    (submitGuessWrite bugRoom5 bugRoom5 Player.one dullGuess 1000).1.winner = none := by
  decide

/-- Reduction of the winner decision for player 1. -/
theorem decideWinner_one (g : Guess) (u o : List Guess) :
    decideWinner Player.one g u o =
      if g.correctPositions = 4 then
        (if u.length ≤ o.length then some Winner.p1 else none)
      else
        (if hasCorrectGuess o then some Winner.p2 else none) := rfl

/-- Reduction of the winner decision for player 2. -/
theorem decideWinner_two (g : Guess) (u o : List Guess) :
    decideWinner Player.two g u o =
      if g.correctPositions = 4 then
        (if hasCorrectGuess o then some Winner.tie else some Winner.p2)
      else
        (if hasCorrectGuess o then some Winner.p1 else none) := rfl

/-- Both players have made two scoreless guesses; player 1 to move. -/
def scenarioRoomC2 : GameRoom :=
  { sampleRoom with player1_guesses := [dullGuess, dullGuess],
                    player2_guesses := [dullGuess, dullGuess] }

/-- Player 2 has had one more guess than player 1. -/
def aheadRoom : GameRoom := { sampleRoom with player2_guesses := [dullGuess] }

/-- Claim C2: on player 1's accepted guess, a fully correct guess makes
player 1 the winner exactly when player 2's existing guess count is at least
player 1's post-append count (otherwise the winner stays unset), and an
incorrect guess hands the win to player 2 exactly when player 2 already has a
fully correct guess; in particular a correct third guess against a two-guess
opponent leaves the winner unset. -/
theorem submit_p1_win_rule (r : GameRoom) (g : Guess) (now : Int)
    (hv : r.version ≠ 0) (hturn : r.current_turn = Player.one)
    (hw : r.winner = none) :
    (submitGuessWrite r r Player.one g now).2 = true ∧
    (g.correctPositions = 4 →
       ((submitGuessWrite r r Player.one g now).1.winner = some Winner.p1 ↔
          r.player1_guesses.length + 1 ≤ r.player2_guesses.length) ∧
       (r.player2_guesses.length < r.player1_guesses.length + 1 →
          (submitGuessWrite r r Player.one g now).1.winner = none)) ∧
    (g.correctPositions ≠ 4 →
       ((submitGuessWrite r r Player.one g now).1.winner = some Winner.p2 ↔
          ∃ pg ∈ r.player2_guesses, pg.correctPositions = 4) ∧
       ((¬∃ pg ∈ r.player2_guesses, pg.correctPositions = 4) →
          (submitGuessWrite r r Player.one g now).1.winner = none)) ∧
    (submitGuessWrite scenarioRoomC2 scenarioRoomC2 Player.one winGuess 0).1.winner
      = none := by
  have hcond : r.version = observedVersion r ∧ r.current_turn = Player.one := by
    refine ⟨?_, hturn⟩
    unfold observedVersion
    rw [if_neg hv]
  have hB : (submitGuessWrite r r Player.one g now).2 = true := by
    simp only [submitGuessWrite]
    rw [if_pos hcond]
  have hW : (submitGuessWrite r r Player.one g now).1.winner =
      decideWinner Player.one g (r.player1_guesses ++ [g]) r.player2_guesses := by
    simp only [submitGuessWrite]
    rw [if_pos hcond]
  refine ⟨hB, fun h4 => ?_, fun h4 => ?_, by decide⟩
  · rw [hW, decideWinner_one, if_pos h4]
    simp only [List.length_append, List.length_singleton]
    constructor
    · constructor
      · intro hwin
        by_contra hle
        rw [if_neg hle] at hwin
        exact Option.noConfusion hwin
      · intro hle
        rw [if_pos hle]
    · intro hlt
      rw [if_neg (by omega)]
  · rw [hW, decideWinner_one, if_neg h4]
    by_cases hc : hasCorrectGuess r.player2_guesses = true
    · rw [if_pos hc]
      rw [hasCorrectGuess_iff] at hc
      exact ⟨⟨fun _ => hc, fun _ => rfl⟩, fun hn => absurd hc hn⟩
    · rw [if_neg hc]
      rw [hasCorrectGuess_iff] at hc
      exact ⟨⟨fun hwin => Option.noConfusion hwin, fun hmem => absurd hmem hc⟩,
        fun _ => rfl⟩

/-- Witness for C2: with player 2 one guess ahead, player 1's correct guess
wins immediately; the scenario conjunct is evaluated inside the theorem. -/
theorem submit_p1_win_rule_witness :
    (submitGuessWrite aheadRoom aheadRoom Player.one winGuess 0).2 = true ∧
    (submitGuessWrite aheadRoom aheadRoom Player.one winGuess 0).1.winner =
      some Winner.p1 := by
  have h := submit_p1_win_rule aheadRoom winGuess 0 (by decide) rfl rfl
  exact ⟨h.1, (h.2.1 rfl).1.mpr (by decide)⟩

/-- Claim C3: on player 2's accepted guess, a fully correct guess yields a tie
exactly when player 1 already has a fully correct guess and yields a player 2
win otherwise; an incorrect guess hands the win to player 1 exactly when
player 1 already guessed correctly, and otherwise leaves the winner unset. -/
theorem submit_p2_win_rule (r : GameRoom) (g : Guess) (now : Int)
    (hv : r.version ≠ 0) (hturn : r.current_turn = Player.two)
    (hw : r.winner = none) :
    (submitGuessWrite r r Player.two g now).2 = true ∧
    (g.correctPositions = 4 →
       ((submitGuessWrite r r Player.two g now).1.winner = some Winner.tie ↔
          ∃ pg ∈ r.player1_guesses, pg.correctPositions = 4) ∧
       ((¬∃ pg ∈ r.player1_guesses, pg.correctPositions = 4) →
          (submitGuessWrite r r Player.two g now).1.winner = some Winner.p2)) ∧
    (g.correctPositions ≠ 4 →
       ((submitGuessWrite r r Player.two g now).1.winner = some Winner.p1 ↔
          ∃ pg ∈ r.player1_guesses, pg.correctPositions = 4) ∧
       ((¬∃ pg ∈ r.player1_guesses, pg.correctPositions = 4) →
          (submitGuessWrite r r Player.two g now).1.winner = none)) := by
  have hcond : r.version = observedVersion r ∧ r.current_turn = Player.two := by
    refine ⟨?_, hturn⟩
    unfold observedVersion
    rw [if_neg hv]
  have hB : (submitGuessWrite r r Player.two g now).2 = true := by
    simp only [submitGuessWrite]
    rw [if_pos hcond]
  have hW : (submitGuessWrite r r Player.two g now).1.winner =
      decideWinner Player.two g (r.player2_guesses ++ [g]) r.player1_guesses := by
    simp only [submitGuessWrite]
    rw [if_pos hcond]
  refine ⟨hB, fun h4 => ?_, fun h4 => ?_⟩
  · rw [hW, decideWinner_two, if_pos h4]
    by_cases hc : hasCorrectGuess r.player1_guesses = true
    · rw [if_pos hc]
      rw [hasCorrectGuess_iff] at hc
      exact ⟨⟨fun _ => hc, fun _ => rfl⟩, fun hn => absurd hc hn⟩
    · rw [if_neg hc]
      rw [hasCorrectGuess_iff] at hc
      exact ⟨⟨fun htie => Winner.noConfusion (Option.some.inj htie),
        fun hmem => absurd hmem hc⟩, fun _ => rfl⟩
  · rw [hW, decideWinner_two, if_neg h4]
    by_cases hc : hasCorrectGuess r.player1_guesses = true
    · rw [if_pos hc]
      rw [hasCorrectGuess_iff] at hc
      exact ⟨⟨fun _ => hc, fun _ => rfl⟩, fun hn => absurd hc hn⟩
    · rw [if_neg hc]
      rw [hasCorrectGuess_iff] at hc
      exact ⟨⟨fun hwin => Option.noConfusion hwin, fun hmem => absurd hmem hc⟩,
        fun _ => rfl⟩

/-- A room where it is player 2's turn. -/
def turn2Room : GameRoom :=
  { sampleRoom with current_turn := .two, current_turn_player := some .two }

/-- Witness for C3: player 2 guesses correctly while player 1 has no correct
guess, so player 2 wins outright. -/
theorem submit_p2_win_rule_witness :
    (submitGuessWrite turn2Room turn2Room Player.two winGuess 0).2 = true ∧
    (submitGuessWrite turn2Room turn2Room Player.two winGuess 0).1.winner =
      some Winner.p2 := by
  have h := submit_p2_win_rule turn2Room winGuess 0 (by decide) rfl rfl
  refine ⟨h.1, (h.2.1 rfl).2 ?_⟩
  rintro ⟨pg, hmem, -⟩
  simp [turn2Room, sampleRoom] at hmem

/-- Claim C5: an accepted `submitGuess` by the active player (clock running,
`current_turn_player` equal to the submitter) settles only the submitter's
baseline to `max 0 (old - floor((now - turnStartedAt)/1000))` plus the fixed
5-second move bonus, writes the opponent's baseline back unchanged, and both
baselines land in the same single written row. -/
theorem submit_settles_clock (r : GameRoom) (p : Player) (g : Guess)
    (now ts b1 b2 : Int)
    (hv : r.version ≠ 0) (hturn : r.current_turn = p)
    (hts : r.turn_started_at = some ts) (hctp : r.current_turn_player = some p)
    (hb1 : r.player1_time_remaining = some b1)
    (hb2 : r.player2_time_remaining = some b2) :
    (submitGuessWrite r r p g now).2 = true ∧
    (p = Player.one →
       (submitGuessWrite r r p g now).1.player1_time_remaining =
         some (max 0 (b1 - Int.fdiv (now - ts) 1000) + 5) ∧
       (submitGuessWrite r r p g now).1.player2_time_remaining = some b2) ∧
    (p = Player.two →
       (submitGuessWrite r r p g now).1.player2_time_remaining =
         some (max 0 (b2 - Int.fdiv (now - ts) 1000) + 5) ∧
       (submitGuessWrite r r p g now).1.player1_time_remaining = some b1) := by
  have hcond : r.version = observedVersion r ∧ r.current_turn = p := by
    refine ⟨?_, hturn⟩
    unfold observedVersion
    rw [if_neg hv]
  cases p with
  | one =>
    have hB : (submitGuessWrite r r Player.one g now).2 = true := by
      simp only [submitGuessWrite]
      rw [if_pos hcond]
    have h1 : (submitGuessWrite r r Player.one g now).1.player1_time_remaining =
        some (max 0 (b1 - Int.fdiv (now - ts) 1000) + 5) := by
      simp only [submitGuessWrite]
      rw [if_pos hcond]
      simp [submitUpdatedTimes, hts, hctp, hb1, hb2]
    have h2 : (submitGuessWrite r r Player.one g now).1.player2_time_remaining =
        some b2 := by
      simp only [submitGuessWrite]
      rw [if_pos hcond]
      simp [submitUpdatedTimes, hts, hctp, hb1, hb2]
    exact ⟨hB, fun _ => ⟨h1, h2⟩, fun hq => Player.noConfusion hq⟩
  | two =>
    have hB : (submitGuessWrite r r Player.two g now).2 = true := by
      simp only [submitGuessWrite]
      rw [if_pos hcond]
    have h1 : (submitGuessWrite r r Player.two g now).1.player2_time_remaining =
        some (max 0 (b2 - Int.fdiv (now - ts) 1000) + 5) := by
      simp only [submitGuessWrite]
      rw [if_pos hcond]
      simp [submitUpdatedTimes, hts, hctp, hb1, hb2]
    have h2 : (submitGuessWrite r r Player.two g now).1.player1_time_remaining =
        some b1 := by
      simp only [submitGuessWrite]
      rw [if_pos hcond]
      simp [submitUpdatedTimes, hts, hctp, hb1, hb2]
    exact ⟨hB, fun hq => Player.noConfusion hq, fun _ => ⟨h1, h2⟩⟩

/-- Witness for C5: 2500ms elapsed charges 2 whole seconds and adds the
5-second bonus (300 to 303); the opponent stays at 300. -/
theorem submit_settles_clock_witness :
    (submitGuessWrite sampleRoom sampleRoom Player.one dullGuess 2500).2 = true ∧
    (submitGuessWrite sampleRoom sampleRoom Player.one dullGuess 2500).1.player1_time_remaining
      = some 303 ∧
    (submitGuessWrite sampleRoom sampleRoom Player.one dullGuess 2500).1.player2_time_remaining
      = some 300 := by
  have h := submit_settles_clock sampleRoom Player.one dullGuess 2500 0 300 300
    (by decide) rfl rfl rfl rfl rfl
  refine ⟨h.1, ?_, (h.2.1 rfl).2⟩
  have h1 := (h.2.1 rfl).1
  rw [h1]
  decide

/-- A position match between two characters contributes no more than the
membership test for that guess character does. -/
theorem pos_le_digit_term (x y : Char) (s : List Char) (hy : y ∈ s) :
    (if x = y then (1 : Nat) else 0) ≤ (if s.contains x = true then 1 else 0) := by
  split_ifs <;> simp_all

/-- Claim C8: over 4-character guess and secret, `correctPositions` never
exceeds `correctDigits`, and `correctPositions = 4` holds exactly when the
guess equals the secret; scoring guess "1243" against secret "1234" yields
correctDigits 4 and correctPositions 2. -/
theorem score_relation (guess secret : List Char)
    (hg : guess.length = 4) (hs : secret.length = 4) :
    (correctPositionsOf guess secret ≤ correctDigitsOf guess secret ∧
     (correctPositionsOf guess secret = 4 ↔ guess = secret)) ∧
    evaluateGuess ['1', '2', '4', '3'] ['1', '2', '3', '4'] = (4, 2) := by
  refine ⟨?_, by decide⟩
  obtain ⟨a, b, c, d, rfl⟩ := length_four_cases guess hg
  obtain ⟨e, f, m, n, rfl⟩ := length_four_cases secret hs
  constructor
  · have t1 := pos_le_digit_term a e [e, f, m, n] (by simp)
    have t2 := pos_le_digit_term b f [e, f, m, n] (by simp)
    have t3 := pos_le_digit_term c m [e, f, m, n] (by simp)
    have t4 := pos_le_digit_term d n [e, f, m, n] (by simp)
    simp only [correctPositionsOf, correctDigitsOf, List.getD_cons_zero,
      List.getD_cons_succ, List.countP_cons, List.countP_nil]
    omega
  · constructor
    · intro h
      by_cases h0 : a = e <;> by_cases h1 : b = f <;> by_cases h2 : c = m <;>
        by_cases h3 : d = n <;>
        simp_all [correctPositionsOf, List.getD_cons_zero, List.getD_cons_succ]
    · intro heq
      rw [heq]
      simp [correctPositionsOf, List.getD_cons_zero, List.getD_cons_succ]

/-- Witness for C8 at the concrete 4-digit strings of the scenario. -/
theorem score_relation_witness :
    correctPositionsOf ['1', '2', '4', '3'] ['1', '2', '3', '4'] ≤
      correctDigitsOf ['1', '2', '4', '3'] ['1', '2', '3', '4'] ∧
    (correctPositionsOf ['1', '2', '4', '3'] ['1', '2', '3', '4'] = 4 ↔
      ['1', '2', '4', '3'] = ['1', '2', '3', '4']) :=
  (score_relation ['1', '2', '4', '3'] ['1', '2', '3', '4'] rfl rfl).1

/-- A pre-start room with both players joined and both secrets already set. -/
def waitingRoom : GameRoom :=
  { sampleRoom with game_started := false, current_turn_player := none,
                    turn_started_at := none }

/-- Claim C9 counterexample: both escape hatches are real. On a room where
player 2's secret is set (ready true) and the game has not started,
`leaveGame` by player 2 clears player 2's secret (writes SQL NULL) and ready
flag; and `setPlayerSecret` overwrites player 1's already-set secret without
any condition. -/
theorem secret_altered_counterexample :
    waitingRoom.player2_ready = true ∧
    waitingRoom.player2_secret = some "5678" ∧
    (leaveGame waitingRoom Player.two).1 =
      some { waitingRoom with player2_id := none, player2_ready := false,
                              player2_secret := none,
                              version := waitingRoom.version + 1 } ∧
    waitingRoom.player1_ready = true ∧
    waitingRoom.player1_secret = some "1234" ∧
    (setPlayerSecret waitingRoom Player.one "9876").1.player1_secret =
      some "9876" := by
  decide

/-- Claim C9 (amended): a set secret is preserved by every operation except
`setPlayerSecret` for that same player, which overwrites it unconditionally,
and — for player 2's secret — `leaveGame` invoked by player 2 on a
not-yet-started room that has a second player, the one branch that clears
player 2's secret and ready flag. In particular a post-start leave (forfeit)
by player 2 preserves both secrets. -/
theorem secret_preserved_amended (r : GameRoom) (op : Op) (r2 : GameRoom)
    (h : (applyOp r op).1 = some r2) :
    ((∀ s, op ≠ Op.setSecret Player.one s) →
       r2.player1_secret = r.player1_secret) ∧
    ((∀ s, op ≠ Op.setSecret Player.two s) →
       ¬(op = Op.leave Player.two ∧ r.game_started = false ∧ r.player2_id ≠ none) →
       r2.player2_secret = r.player2_secret) := by
  cases op with
  | join uid =>
    rcases uid with _ | u <;>
      simp only [applyOp, joinGameRoom] at h <;>
      (try split_ifs at h) <;>
      simp only [Option.some.injEq] at h <;>
      (subst h; exact ⟨fun _ => rfl, fun _ _ => rfl⟩)
  | setSecret p s =>
    cases p <;> simp only [applyOp, setPlayerSecret, Option.some.injEq] at h <;>
      subst h
    · exact ⟨fun hne => absurd rfl (hne s), fun _ _ => rfl⟩
    · exact ⟨fun _ => rfl, fun hne _ => absurd rfl (hne s)⟩
  | start now =>
    simp only [applyOp, startGame] at h
    split_ifs at h <;> simp only [Option.some.injEq] at h <;>
      (subst h; exact ⟨fun _ => rfl, fun _ _ => rfl⟩)
  | submit o p g now =>
    cases p <;>
      simp only [applyOp, submitGuessWrite] at h <;>
      split_ifs at h <;>
      simp only [Option.some.injEq] at h <;>
      (subst h; exact ⟨fun _ => rfl, fun _ _ => rfl⟩)
  | expire p =>
    simp only [applyOp, handleTimeExpiration] at h
    split_ifs at h <;> simp only [Option.some.injEq] at h <;>
      (subst h; exact ⟨fun _ => rfl, fun _ _ => rfl⟩)
  | leave p =>
    simp only [applyOp, leaveGame] at h
    split_ifs at h with hc1 hc2 hc3 <;>
      first
      | (simp only [Option.some.injEq] at h
         subst h
         first
         | exact ⟨fun _ => rfl, fun _ _ => rfl⟩
         | (refine ⟨fun _ => rfl, fun _ hne => ?_⟩
            exact absurd
              ⟨show Op.leave p = Op.leave Player.two from by rw [hc2.2.2],
               hc2.1, hc2.2.1⟩ hne))

/-- The row after player 2 forfeits the started `sampleRoom`. -/
def forfeitRoom : GameRoom :=
  { sampleRoom with winner := some Winner.p1, current_turn_player := none,
                    turn_started_at := none, version := sampleRoom.version + 1 }

/-- Witness for the amended C9: expiring a clock alters neither secret, and a
post-start leave (forfeit) by player 2 preserves player 2's secret. -/
theorem secret_preserved_amended_witness :
    (handleTimeExpiration sampleRoom Player.one).1.player1_secret =
      sampleRoom.player1_secret ∧
    (handleTimeExpiration sampleRoom Player.one).1.player2_secret =
      sampleRoom.player2_secret ∧
    forfeitRoom.player2_secret = sampleRoom.player2_secret := by
  have h2 := secret_preserved_amended sampleRoom (Op.expire Player.one)
    (handleTimeExpiration sampleRoom Player.one).1 rfl
  have hf := secret_preserved_amended sampleRoom (Op.leave Player.two)
    forfeitRoom (by decide)
  refine ⟨h2.1 ?_, h2.2 ?_ ?_, hf.2 ?_ ?_⟩
  · intro s hs
    exact Op.noConfusion hs
  · intro s hs
    exact Op.noConfusion hs
  · intro hs
    exact Op.noConfusion hs.1
  · intro s hs
    exact Op.noConfusion hs
  · intro hs
    exact absurd hs.2.1 (by decide)

end Guess4
